import Mathlib

/-!
Formal model of the ApexView backend (`src/backend/main.py`).

The backend aggregates F1 championship data from two upstream providers
(f1api.dev as the primary, OpenF1 as the secondary) with tiered fallbacks.
The upstream world is modelled by a `Gateway` record: each field gives, for a
query the code can issue, the parsed JSON the transport layer would hand back
(`none` models a timeout / non-200 / transport error, which the fetch helpers
collapse to Python `None`).

Modelling conventions:
* times are UTC epoch seconds (`Int`); the code compares ISO-8601 strings or
  parsed datetimes, and consistently formatted ISO strings are order-isomorphic
  to the instants they denote;
* lap and sector durations are integer milliseconds, so the decimal arithmetic
  of the source (seconds as floats with three rendered decimals) is exact;
* Python `dict`s are association lists in insertion order, mirroring dict
  semantics (updates in place, new keys appended);
* a Python block that can raise is an `Except Unit` computation; the source's
  `except`-handlers become explicit `match`es on the result.
-/

/-- First-match association-list lookup, the model of Python `d[k]` / `k in d`. -/
def lookupV {κ α : Type} [DecidableEq κ] : List (κ × α) → κ → Option α
  | [], _ => none
  | (k, v) :: r, k' => if k = k' then some v else lookupV r k'

/-- Replace the value at the first occurrence of a key, keeping its slot:
the model of `d[k] = v` for a key already present. -/
def setVal {κ α : Type} [DecidableEq κ] : List (κ × α) → κ → α → List (κ × α)
  | [], _, _ => []
  | (k, v) :: r, k', v' => if k = k' then (k, v') :: r else (k, v) :: setVal r k' v'

/-- The decimal digits of a natural number, as the characters Python `str` produces. -/
def natChars (n : Nat) : List Char := (Nat.repr n).data

/-- Left-pad a character list with `'0'` up to width `w`: the zero-padding of a
`0`-flagged width field in a Python format spec. -/
def padZ (w : Nat) (l : List Char) : List Char := List.replicate (w - l.length) '0' ++ l

/-- The seconds field of the lap-time string: `f"{seconds:06.3f}"` for
`s` milliseconds of seconds-part (three exact decimals, whole field padded to
width 6). -/
def fmt63 (s : Nat) : List Char :=
  padZ 6 (natChars (s / 1000) ++ '.' :: padZ 3 (natChars (s % 1000)))

/-- Lap-time rendering from `fetch_fastest_lap` / `fetch_fastest_laps`
(main.py 483-486 and 555-558): `f"{int(duration // 60)}:{duration % 60:06.3f}"`,
with the duration in milliseconds. -/
def format_lap_time (ms : Nat) : String :=
  String.mk (natChars (ms / 60000) ++ ':' :: fmt63 (ms % 60000))

/-- `calculate_time_left` (main.py 110-143).  The argument is the outcome of
the source's datetime parsing: `none` when `datetime.fromisoformat` raises (the
`except` branch), `some t` the parsed UTC instant.  `now` is the current time. -/
def calculate_time_left (race_dt : Option Int) (now : Int) : String :=
  match race_dt with
  | none => "Unknown"
  | some t =>
    let total := t - now
    if total < 0 then "Race completed"
    else
      let days := total / 86400
      let secs := total % 86400
      let hours := secs / 3600
      let remainder := secs % 3600
      let minutes := remainder / 60
      if days > 0 then toString days ++ " days, " ++ toString hours ++ " hours"
      else if hours > 0 then toString hours ++ " hours, " ++ toString minutes ++ " minutes"
      else toString minutes ++ " minutes"

/-- `POINTS_SYSTEM.get(position, 0)` (main.py 72-74, 211). -/
def pointsFor (p : Nat) : Nat :=
  if p = 1 then 25 else if p = 2 then 18 else if p = 3 then 15 else if p = 4 then 12
  else if p = 5 then 10 else if p = 6 then 8 else if p = 7 then 6 else if p = 8 then 4
  else if p = 9 then 2 else if p = 10 then 1 else 0

/-- The identity record stored in `DRIVER_INFO`. -/
structure DriverInfoT where
  name : String
  abbr : String
  team : String
deriving DecidableEq

/-- `DRIVER_INFO.get(driver_number, {...placeholder...})` (main.py 77-108,
205-209, 476-480, 549-553): the static car-number-to-identity table with the
synthesized placeholder for unknown numbers. -/
def driverInfo (n : Nat) : DriverInfoT :=
  if n = 1 then ⟨"Max Verstappen", "VER", "Red Bull Racing"⟩
  else if n = 22 then ⟨"Yuki Tsunoda", "TSU", "Red Bull Racing"⟩
  else if n = 16 then ⟨"Charles Leclerc", "LEC", "Ferrari"⟩
  else if n = 44 then ⟨"Lewis Hamilton", "HAM", "Ferrari"⟩
  else if n = 63 then ⟨"George Russell", "RUS", "Mercedes"⟩
  else if n = 12 then ⟨"Kimi Antonelli", "ANT", "Mercedes"⟩
  else if n = 4 then ⟨"Lando Norris", "NOR", "McLaren"⟩
  else if n = 81 then ⟨"Oscar Piastri", "PIA", "McLaren"⟩
  else if n = 14 then ⟨"Fernando Alonso", "ALO", "Aston Martin"⟩
  else if n = 18 then ⟨"Lance Stroll", "STR", "Aston Martin"⟩
  else if n = 10 then ⟨"Pierre Gasly", "GAS", "Alpine"⟩
  else if n = 43 then ⟨"Franco Colapinto", "COL", "Alpine"⟩
  else if n = 31 then ⟨"Esteban Ocon", "OCO", "Haas"⟩
  else if n = 87 then ⟨"Oliver Bearman", "BEA", "Haas"⟩
  else if n = 27 then ⟨"Niko Hulkenberg", "HUL", "Kick Sauber"⟩
  else if n = 5 then ⟨"Gabriel Bortoleto", "BOR", "Kick Sauber"⟩
  else if n = 23 then ⟨"Alexander Albon", "ALB", "Williams"⟩
  else if n = 2 then ⟨"Logan Sargeant", "SAR", "Williams"⟩
  else if n = 55 then ⟨"Carlos Sainz", "SAI", "Williams"⟩
  else if n = 30 then ⟨"Liam Lawson", "LAW", "Racing Bulls"⟩
  else if n = 6 then ⟨"Isack Hadjar", "HAD", "Racing Bulls"⟩
  else ⟨"Driver " ++ Nat.repr n, "D" ++ Nat.repr n, "Unknown"⟩

/-- Pydantic `Driver` model (main.py 32-37); `points: float` becomes `ℚ`. -/
structure Driver where
  position : Nat
  driver_name : String
  abbreviation : String
  team : String
  points : ℚ
deriving DecidableEq

/-- Pydantic `Team` model (main.py 39-42). -/
structure Team where
  position : Nat
  team_name : String
  points : ℚ
deriving DecidableEq

/-- Pydantic `NextRace` model (main.py 44-49). -/
structure NextRace where
  race_name : String
  location : String
  country : String
  date : String
  time_left : String
deriving DecidableEq

/-- Pydantic `FastestLap` model (main.py 51-58); sector times in milliseconds. -/
structure FastestLap where
  driver_name : String
  abbreviation : String
  team : String
  lap_time : String
  race_name : String
  date : String
  sector_times : List Int
deriving DecidableEq

/-- One OpenF1 race-session record, with the fields the code reads.
`date_end` is `none` when the key is absent (the session is then filtered out
by `'date_end' in s`), `some none` when present but unparseable (then
`datetime.fromisoformat` raises inside the comprehension), and `some (some t)`
the parsed end instant. -/
structure SessionRec where
  session_key : Nat
  meeting_name : Option String
  date_start : Option String
  date_end : Option (Option Int)
deriving DecidableEq

/-- One OpenF1 lap record; `lap_duration` in milliseconds, `none` for a
missing or null duration. -/
structure LapRec where
  driver_number : Nat
  lap_duration : Option Int
  lap_number : Option Nat
deriving DecidableEq

/-- One OpenF1 position record: car number, timestamp of the update, and the
position held at that timestamp. -/
structure PositionRec where
  driver_number : Nat
  date : Int
  position : Nat
deriving DecidableEq

/-- A JSON scalar fed to Python `float(...)`: a number, or a value on which
the conversion raises. -/
inductive JVal where
  | jnum (q : ℚ)
  | jjunk
deriving DecidableEq

/-- One entry of the primary provider's driver-standings list, with the
alternative key spellings the code probes via `.get`. -/
structure PrimDriverEntry where
  driver_name : Option String
  name : Option String
  abbreviation : Option String
  code : Option String
  team : Option String
  constructorName : Option String
  points : Option JVal
deriving DecidableEq

/-- One entry of the primary provider's team-standings list. -/
structure PrimTeamEntry where
  team_name : Option String
  name : Option String
  points : Option JVal
deriving DecidableEq

/-- The outcome of the source's race-date parsing (main.py 345-358):
a full timestamp, a date-only string (no `'T'`, defaulted to 15:00 UTC by
`fetch_next_race` and to midnight by `calculate_time_left`), or a string on
which `datetime.fromisoformat` raises. -/
inductive PDate where
  | full (t : Int)
  | dateOnly (d : Int)
  | bad
deriving DecidableEq

/-- One race of the primary provider's season list; `date = none` models a
missing or empty date string (skipped by `if race_date:`). -/
structure RaceEntry where
  race_name : Option String
  name : Option String
  location : Option String
  circuit : Option String
  country : Option String
  date : Option PDate
deriving DecidableEq

/-- One OpenF1 meeting record; `date_start = none` models a missing, empty or
unparseable start date (the candidate is skipped either way). -/
structure MeetingRec where
  meeting_name : Option String
  location : Option String
  country_name : Option String
  date_start : Option Int
deriving DecidableEq

/-- The Source Gateway: for each query the code can issue, the parsed JSON the
transport helpers `fetch_from_f1api_dev` / `fetch_from_openf1` return, with
`none` for any timeout, transport error, non-200 status, or (for the primary
provider) a body lacking the expected top-level key. -/
structure Gateway where
  sessionsByYear : Int → Option (List SessionRec)
  positionsBySession : Nat → Option (List PositionRec)
  lapsBySession : Nat → Option (List LapRec)
  primDriverStandings : Option (List PrimDriverEntry)
  primTeamStandings : Option (List PrimTeamEntry)
  primRaces : Int → Option (List RaceEntry)
  meetings : Int → Option (List MeetingRec)

/-- The session-list resolution shared by `calculate_standings_from_results`
(main.py 173-180) and the fastest-lap fetchers (main.py 441-446): fetch the
year's race sessions, fall back to the previous year when the answer is falsy
(`None` or `[]`), and hand an empty list to the caller's own falsy check when
both attempts fail. -/
def resolvedSessions (gw : Gateway) (year : Int) : List SessionRec :=
  match gw.sessionsByYear year with
  | some (s :: ss) => s :: ss
  | _ =>
    match gw.sessionsByYear (year - 1) with
    | some l => l
    | none => []

/-- One step of the dict-accumulation pattern shared by the final-position loop
(main.py 196-200) and the best-lap loop (main.py 534-539): skip `x` unless it
passes the guard `φ`; otherwise insert it under `key x` if the key is new, or
replace the stored value when `better x current` holds. -/
def keepBest {κ α : Type} [DecidableEq κ] (φ : α → Bool) (key : α → κ)
    (better : α → α → Bool) (m : List (κ × α)) (x : α) : List (κ × α) :=
  if φ x then
    match lookupV m (key x) with
    | none => m ++ [(key x, x)]
    | some cur => if better x cur then setVal m (key x) x else m
  else m

/-- Fold `keepBest` over a record list starting from the empty dict. -/
def collectBest {κ α : Type} [DecidableEq κ] (φ : α → Bool) (key : α → κ)
    (better : α → α → Bool) (l : List α) : List (κ × α) :=
  l.foldl (keepBest φ key better) []

/-- The `final_positions` dict of `calculate_standings_from_results`
(main.py 196-200): for each car number keep the record with the latest
timestamp, strictly later records replacing the stored one. -/
def finalPositions (ps : List PositionRec) : List (Nat × PositionRec) :=
  collectBest (fun _ => true) (·.driver_number) (fun p cur => cur.date < p.date) ps

/-- The lap-validity test of both fastest-lap fetchers (main.py 468, 536):
`lap.get('lap_duration') and lap['lap_duration'] > 0`. -/
def validLap (l : LapRec) : Bool :=
  match l.lap_duration with
  | none => false
  | some d => 0 < d

/-- The duration a valid lap is keyed and sorted by. -/
def durOf (l : LapRec) : Int := l.lap_duration.getD 0

/-- The `driver_best_laps` dict of `fetch_fastest_laps` (main.py 534-539):
each driver's strictly fastest valid lap, first occurrence winning ties. -/
def driverBestLaps (laps : List LapRec) : List (Nat × LapRec) :=
  collectBest validLap (·.driver_number) (fun x cur => durOf x < durOf cur) laps

/-- The `past_races` comprehension of the fastest-lap fetchers
(main.py 450-453, 518-521): keep the sessions whose `date_end` is present and
parses to an instant strictly before `now`; an unparseable `date_end` raises
out of the comprehension (an `error` here), to be caught by the enclosing
handler. -/
def pastFilter : List SessionRec → Int → Except Unit (List SessionRec)
  | [], _ => .ok []
  | s :: ss, now =>
    match s.date_end with
    | none => pastFilter ss now
    | some none => .error ()
    | some (some t) => do
      let r ← pastFilter ss now
      return if t < now then s :: r else r

/-- The parsed end instant of a session that survived `pastFilter`. -/
def endOf (s : SessionRec) : Int := (s.date_end.getD none).getD 0

/-- `max(past_races, key=lambda s: s['date_end'])` (main.py 459, 525):
Python `max` keeps the first of several maximal elements. -/
def maxByEnd : List SessionRec → Option SessionRec
  | [] => none
  | s :: ss => some (ss.foldl (fun best c => if endOf best < endOf c then c else best) s)

/-- `min(valid_laps, key=lambda x: x['lap_duration'])` (main.py 473):
Python `min` keeps the first of several minimal elements. -/
def minByDur : List LapRec → Option LapRec
  | [] => none
  | l :: ls => some (ls.foldl (fun best c => if durOf c < durOf best then c else best) l)

/-- The session-selection stage shared by both fastest-lap fetchers
(main.py 440-459, 510-525): resolve the session list, return the fallback
signal `none` when it is empty or no session has ended, raise when a
`date_end` fails to parse, and otherwise pick the most recently ended
session. -/
def selectedSession (gw : Gateway) (now year : Int) : Except Unit (Option SessionRec) :=
  match resolvedSessions gw year with
  | [] => .ok none
  | s :: ss => do
    let past ← pastFilter (s :: ss) now
    return maxByEnd past

/-- `get_fallback_fastest_lap` (main.py 578-588). -/
def get_fallback_fastest_lap : FastestLap :=
  { driver_name := "Max Verstappen"
    abbreviation := "VER"
    team := "Red Bull Racing"
    lap_time := "1:20.554"
    race_name := "Abu Dhabi Grand Prix"
    date := "2024-12-08"
    sector_times := [25500, 35200, 19854] }

/-- The call `get_sector_times(session_key, driver_number, lap_number)`
(main.py 489, 560).  No function of that name is defined anywhere in the
repository, so evaluating the call raises `NameError` unconditionally. -/
def nameErrorSectors : Except Unit (List Int) := .error ()

/-- The `FastestLap` record both fetchers build from the selected session, a
lap, and the sector list (main.py 491-499, 562-570). -/
def mkLap (sess : SessionRec) (lap : LapRec) (sectors : List Int) : FastestLap :=
  let info := driverInfo lap.driver_number
  { driver_name := info.name
    abbreviation := info.abbr
    team := info.team
    lap_time := format_lap_time (durOf lap).toNat
    race_name := sess.meeting_name.getD "Unknown"
    date := (sess.date_start.getD "").take 10
    sector_times := sectors }

/-- The `try`-block body of `fetch_fastest_lap` (main.py 437-499); an `error`
is an exception reaching the `except` handler. -/
def fastestLapBody (gw : Gateway) (now year : Int) : Except Unit FastestLap := do
  match ← selectedSession gw now year with
  | none => return get_fallback_fastest_lap
  | some latest =>
    match gw.lapsBySession latest.session_key with
    | some (l :: ls) =>
      match minByDur ((l :: ls).filter validLap) with
      | none => return get_fallback_fastest_lap
      | some fl => do
        let st ← nameErrorSectors
        return mkLap latest fl st
    | _ => return get_fallback_fastest_lap

/-- `fetch_fastest_lap` (main.py 435-503): the body with its catch-all
`except` handler returning the static fallback. -/
def fetch_fastest_lap (gw : Gateway) (now year : Int) : FastestLap :=
  match fastestLapBody gw now year with
  | .ok v => v
  | .error _ => get_fallback_fastest_lap

/-- The `top_laps` list of `fetch_fastest_laps` (main.py 541-542): each
driver's best lap, sorted ascending by duration (Python `sorted` is stable),
first ten kept. -/
def topLapsFrom (laps : List LapRec) : List LapRec :=
  (List.insertionSort (fun a b => durOf a ≤ durOf b)
    ((driverBestLaps laps).map Prod.snd)).take 10

/-- Sequential effectful map: the results loop of `fetch_fastest_laps`
(main.py 544-570), where an exception in any iteration discards the partial
list. -/
def mapEx {α β : Type} (f : α → Except Unit β) : List α → Except Unit (List β)
  | [] => .ok []
  | x :: r => do
    let y ← f x
    let ys ← mapEx f r
    return y :: ys

/-- The `try`-block body of `fetch_fastest_laps` (main.py 507-572). -/
def fastestLapsBody (gw : Gateway) (now year : Int) : Except Unit (List FastestLap) := do
  match ← selectedSession gw now year with
  | none => return [get_fallback_fastest_lap]
  | some latest =>
    match gw.lapsBySession latest.session_key with
    | some (l :: ls) =>
      mapEx (fun lap => do
        let st ← nameErrorSectors
        return mkLap latest lap st) (topLapsFrom (l :: ls))
    | _ => return [get_fallback_fastest_lap]

/-- `fetch_fastest_laps` (main.py 505-576): the body with its catch-all
`except` handler returning the one-element fallback list. -/
def fetch_fastest_laps (gw : Gateway) (now year : Int) : List FastestLap :=
  match fastestLapsBody gw now year with
  | .ok v => v
  | .error _ => [get_fallback_fastest_lap]

/-- The `top_laps` list `fetch_fastest_laps` computes before the results loop,
exposed for stating its properties: empty whenever a fallback path is taken. -/
def topLaps (gw : Gateway) (now year : Int) : List LapRec :=
  match selectedSession gw now year with
  | .ok (some latest) =>
    match gw.lapsBySession latest.session_key with
    | some (l :: ls) => topLapsFrom (l :: ls)
    | _ => []
  | _ => []

/-- The one situation in which `fetch_fastest_laps` escapes both the fallback
list and the exception handler: a most-recent completed session is selected,
its lap list is non-empty, but no lap has a positive duration — then
`top_laps` is empty, the results loop never runs (so the undefined
`get_sector_times` is never reached), and the empty list is returned. -/
def lapsDegenerate (gw : Gateway) (now year : Int) : Bool :=
  match selectedSession gw now year with
  | .ok (some latest) =>
    match gw.lapsBySession latest.session_key with
    | some (l :: ls) => ((l :: ls).filter validLap).isEmpty
    | _ => false
  | _ => false

/-- The key of the `driver_points` dict: `(driver_number, driver_info['name'])`
(main.py 214). -/
abbrev DKey := Nat × String

/-- The value of the `driver_points` dict: accumulated points plus the stored
identity record (main.py 215-220). -/
structure DVal where
  points : Nat
  info : DriverInfoT
deriving DecidableEq

/-- One `driver_points` update (main.py 213-220): initialise a missing key to
zero points with the identity record, then add the session's points. -/
def addPtsD (dp : List (DKey × DVal)) (k : DKey) (pts : Nat) (info : DriverInfoT) :
    List (DKey × DVal) :=
  match lookupV dp k with
  | none => dp ++ [(k, ⟨pts, info⟩)]
  | some v => setVal dp k ⟨v.points + pts, v.info⟩

/-- One `team_points` update (main.py 222-226). -/
def addPtsT (tp : List (String × Nat)) (team : String) (pts : Nat) : List (String × Nat) :=
  match lookupV tp team with
  | none => tp ++ [(team, pts)]
  | some v => setVal tp team (v + pts)

/-- The points-award pass over one session's final positions (main.py 202-220),
restricted to the `driver_points` dict. -/
def procFinalsD (dp : List (DKey × DVal)) (fins : List (Nat × PositionRec)) :
    List (DKey × DVal) :=
  fins.foldl (fun dp kv =>
    addPtsD dp (kv.1, (driverInfo kv.1).name) (pointsFor kv.2.position) (driverInfo kv.1)) dp

/-- The points-award pass over one session's final positions (main.py 202-226),
restricted to the `team_points` dict. -/
def procFinalsT (tp : List (String × Nat)) (fins : List (Nat × PositionRec)) :
    List (String × Nat) :=
  fins.foldl (fun tp kv => addPtsT tp (driverInfo kv.1).team (pointsFor kv.2.position)) tp

/-- The position records of one session, `[]` when the fetch is falsy
(`if not positions: continue`, main.py 190-193). -/
def posList (gw : Gateway) (s : SessionRec) : List PositionRec :=
  (gw.positionsBySession s.session_key).getD []

/-- The `driver_points` dict after the session loop (main.py 183-220).  The
source fills `driver_points` and `team_points` in a single pass; the updates
are independent, so the two dicts are modelled by separate folds. -/
def driverPointsOf (gw : Gateway) (ss : List SessionRec) : List (DKey × DVal) :=
  ss.foldl (fun dp s =>
    match posList gw s with
    | [] => dp
    | ps => procFinalsD dp (finalPositions ps)) []

/-- The `team_points` dict after the session loop (main.py 183-226). -/
def teamPointsOf (gw : Gateway) (ss : List SessionRec) : List (String × Nat) :=
  ss.foldl (fun tp s =>
    match posList gw s with
    | [] => tp
    | ps => procFinalsT tp (finalPositions ps)) []

/-- The driver-standings construction loop (main.py 230-239): 1-based positions
in list order, identity fields from the stored info, points cast to float. -/
def rankD (i : Nat) : List (DKey × DVal) → List Driver
  | [] => []
  | kv :: r =>
    { position := i + 1
      driver_name := kv.2.info.name
      abbreviation := kv.2.info.abbr
      team := kv.2.info.team
      points := (kv.2.points : ℚ) } :: rankD (i + 1) r

/-- The team-standings construction loop (main.py 242-250). -/
def rankT (i : Nat) : List (String × Nat) → List Team
  | [] => []
  | kv :: r =>
    { position := i + 1
      team_name := kv.1
      points := (kv.2 : ℚ) } :: rankT (i + 1) r

/-- `get_fallback_standings` (main.py 258-272). -/
def get_fallback_standings : List Driver × List Team :=
  ([{ position := 1, driver_name := "Max Verstappen", abbreviation := "VER",
      team := "Red Bull Racing", points := 393 },
    { position := 2, driver_name := "Lando Norris", abbreviation := "NOR",
      team := "McLaren", points := 331 },
    { position := 3, driver_name := "Charles Leclerc", abbreviation := "LEC",
      team := "Ferrari", points := 307 }],
   [{ position := 1, team_name := "Red Bull Racing", points := 860 },
    { position := 2, team_name := "McLaren", points := 608 },
    { position := 3, team_name := "Ferrari", points := 584 }])

/-- The descending stable sort of `sorted(..., reverse=True)` applied to the
`driver_points` items (main.py 229). -/
def sortDriversDesc (dp : List (DKey × DVal)) : List (DKey × DVal) :=
  List.insertionSort (fun a b => b.2.points ≤ a.2.points) dp

/-- The descending stable sort of the `team_points` items (main.py 242). -/
def sortTeamsDesc (tp : List (String × Nat)) : List (String × Nat) :=
  List.insertionSort (fun a b => b.2 ≤ a.2) tp

/-- `calculate_standings_from_results` (main.py 167-256): derive both standings
lists from per-session position records, falling back to the static standings
when no sessions resolve.  In the typed model no statement of the body raises,
so the `except` handler (main.py 254-256) has no remaining trigger. -/
def calculate_standings_from_results (gw : Gateway) (year : Int) :
    List Driver × List Team :=
  match resolvedSessions gw year with
  | [] => get_fallback_standings
  | s :: ss =>
    (rankD 0 ((sortDriversDesc (driverPointsOf gw (s :: ss))).take 10),
     rankT 0 ((sortTeamsDesc (teamPointsOf gw (s :: ss))).take 10))

/-- The `float(...)` conversion of a `.get(..., 0)` result: missing means `0.0`,
a non-numeric value raises. -/
def floatOf (v : Option JVal) : Except Unit ℚ :=
  match v with
  | none => .ok 0
  | some (.jnum q) => .ok q
  | some .jjunk => .error ()

/-- The primary-provider driver-standings loop (main.py 283-292): enumerate the
first ten entries, 1-based positions in list order, permissive field defaults;
a failing `float` conversion raises out of the loop. -/
def buildPrimD (i : Nat) : List PrimDriverEntry → Except Unit (List Driver)
  | [] => .ok []
  | e :: r => do
    let pts ← floatOf e.points
    let rest ← buildPrimD (i + 1) r
    return { position := i + 1
             driver_name := e.driver_name.getD (e.name.getD "Unknown")
             abbreviation := e.abbreviation.getD (e.code.getD "UNK")
             team := e.team.getD (e.constructorName.getD "Unknown")
             points := pts } :: rest

/-- The primary-provider team-standings loop (main.py 311-319). -/
def buildPrimT (i : Nat) : List PrimTeamEntry → Except Unit (List Team)
  | [] => .ok []
  | e :: r => do
    let pts ← floatOf e.points
    let rest ← buildPrimT (i + 1) r
    return { position := i + 1
             team_name := e.team_name.getD (e.name.getD "Unknown")
             points := pts } :: rest

/-- `fetch_driver_standings` (main.py 274-301): primary provider first, the
derived standings on a missing/keyless response or a processing exception. -/
def fetch_driver_standings (gw : Gateway) (year : Int) : List Driver :=
  match gw.primDriverStandings with
  | some entries =>
    match buildPrimD 0 (entries.take 10) with
    | .ok l => l
    | .error _ => (calculate_standings_from_results gw year).1
  | none => (calculate_standings_from_results gw year).1

/-- `fetch_constructor_standings` (main.py 303-328). -/
def fetch_constructor_standings (gw : Gateway) (year : Int) : List Team :=
  match gw.primTeamStandings with
  | some entries =>
    match buildPrimT 0 (entries.take 10) with
    | .ok l => l
    | .error _ => (calculate_standings_from_results gw year).2
  | none => (calculate_standings_from_results gw year).2

/-- The race-date parsing of `fetch_next_race` tier 1 (main.py 348-358): a full
timestamp parses to its instant, a date-only string is defaulted to 15:00 UTC,
and a malformed string raises — caught per candidate, so `none` here means the
candidate is skipped. -/
def pdParse15 : PDate → Option Int
  | .full t => some t
  | .dateOnly d => some (d * 86400 + 54000)
  | .bad => none

/-- The same date as `calculate_time_left` reparses it (main.py 114-120):
date-only strings are defaulted to midnight UTC there, not 15:00. -/
def pdParse0 : PDate → Option Int
  | .full t => some t
  | .dateOnly d => some (d * 86400)
  | .bad => none

/-- Days since the Unix epoch of a proleptic-Gregorian civil date
(the standard era-based conversion). -/
def daysFromCivil (y m d : Int) : Int :=
  let y2 := if m ≤ 2 then y - 1 else y
  let era := (if 0 ≤ y2 then y2 else y2 - 399) / 400
  let yoe := y2 - era * 400
  let mp := (m + 9) % 12
  let doy := (153 * mp + 2) / 5 + d - 1
  let doe := yoe * 365 + yoe / 4 - yoe / 100 + doy
  era * 146097 + doe - 719468

/-- Civil date (year, month, day) of a days-since-epoch count (inverse of
`daysFromCivil`). -/
def civilFromDays (z0 : Int) : Int × Int × Int :=
  let z := z0 + 719468
  let era := (if 0 ≤ z then z else z - 146096) / 146097
  let doe := z - era * 146097
  let yoe := (doe - doe / 1460 + doe / 36524 - doe / 146096) / 365
  let y := yoe + era * 400
  let doy := doe - (365 * yoe + yoe / 4 - yoe / 100)
  let mp := (5 * doy + 2) / 153
  let d := doy - (153 * mp + 2) / 5 + 1
  let m := if mp < 10 then mp + 3 else mp - 9
  (if m ≤ 2 then y + 1 else y, m, d)

/-- A zero-padded decimal field of a `strftime` pattern. -/
def padNum (w : Nat) (i : Int) : List Char := padZ w (toString i).data

/-- `race_dt.strftime('%Y-%m-%d %H:%M UTC')` (main.py 369, 401) for a UTC
epoch-seconds instant. -/
def fmtYMDHM (t : Int) : String :=
  let days := t / 86400
  let secs := t % 86400
  let c := civilFromDays days
  String.mk (padNum 4 c.1 ++ '-' :: padNum 2 c.2.1 ++ '-' :: padNum 2 c.2.2 ++
    ' ' :: padNum 2 (secs / 3600) ++ ':' :: padNum 2 ((secs % 3600) / 60)) ++ " UTC"

/-- The display string tier 3 builds by
`race_date.replace('T', ' ').replace('Z', ' UTC')` (main.py 420), rendered from
the parsed date (raw strings are canonicalised: a full timestamp is shown with
seconds and ` UTC`, a date-only string is unchanged, an unparseable string is
collapsed to the empty string). -/
def pdDisplay : PDate → String
  | .full t =>
    let days := t / 86400
    let secs := t % 86400
    let c := civilFromDays days
    String.mk (padNum 4 c.1 ++ '-' :: padNum 2 c.2.1 ++ '-' :: padNum 2 c.2.2 ++
      ' ' :: padNum 2 (secs / 3600) ++ ':' :: padNum 2 ((secs % 3600) / 60) ++
      ':' :: padNum 2 (secs % 60)) ++ " UTC"
  | .dateOnly d =>
    let c := civilFromDays d
    String.mk (padNum 4 c.1 ++ '-' :: padNum 2 c.2.1 ++ '-' :: padNum 2 c.2.2)
  | .bad => ""

/-- The default date of tier 3, `f"{next_year}-03-01T15:00:00Z"`
(main.py 414), as a parsed timestamp. -/
def marchFirst (y : Int) : PDate := .full (daysFromCivil y 3 1 * 86400 + 54000)

/-- One Source Gateway call of the next-race resolver, for the consultation
trace. -/
inductive NQuery where
  | primRaces (y : Int)
  | meetings (y : Int)
deriving DecidableEq

/-- The `upcoming_races` accumulation of tier 1 (main.py 343-358): per-candidate
date presence check, parse (failures skipped), strict comparison with `now`. -/
def upcomingRaces (races : List RaceEntry) (now : Int) : List (RaceEntry × Int) :=
  races.filterMap (fun r =>
    match r.date with
    | none => none
    | some pd =>
      match pdParse15 pd with
      | none => none
      | some t => if now < t then some (r, t) else none)

/-- Tier 1's pick (main.py 360-363): stable-sort the upcoming races by start
time and take the first. -/
def tier1Pick (races : List RaceEntry) (now : Int) : Option (RaceEntry × Int) :=
  (List.insertionSort (fun a b => a.2 ≤ b.2) (upcomingRaces races now)).head?

/-- The `NextRace` record tier 1 returns (main.py 365-371). -/
def mkTier1 (r : RaceEntry) (t now : Int) : NextRace :=
  { race_name := r.race_name.getD (r.name.getD "Unknown")
    location := r.location.getD (r.circuit.getD "Unknown")
    country := r.country.getD "Unknown"
    date := fmtYMDHM t
    time_left := calculate_time_left (some t) now }

/-- The `upcoming_meetings` accumulation of tier 2 (main.py 380-390). -/
def upcomingMeetings (ms : List MeetingRec) (now : Int) : List (MeetingRec × Int) :=
  ms.filterMap (fun m =>
    match m.date_start with
    | none => none
    | some t => if now < t then some (m, t) else none)

/-- Tier 2's pick (main.py 392-395). -/
def tier2Pick (ms : List MeetingRec) (now : Int) : Option (MeetingRec × Int) :=
  (List.insertionSort (fun a b => a.2 ≤ b.2) (upcomingMeetings ms now)).head?

/-- The `NextRace` record tier 2 returns (main.py 397-403). -/
def mkTier2 (m : MeetingRec) (t now : Int) : NextRace :=
  { race_name := m.meeting_name.getD "Unknown"
    location := m.location.getD "Unknown"
    country := m.country_name.getD "Unknown"
    date := fmtYMDHM t
    time_left := calculate_time_left (some t) now }

/-- The `NextRace` record tier 3 returns for the first race of next year's list
(main.py 412-422), regardless of any date comparison. -/
def mkTier3 (r : RaceEntry) (nextYear now : Int) : NextRace :=
  let rd := r.date.getD (marchFirst nextYear)
  { race_name := r.race_name.getD (toString nextYear ++ " Season Opener")
    location := r.location.getD "TBD"
    country := r.country.getD "TBD"
    date := pdDisplay rd
    time_left := calculate_time_left (pdParse0 rd) now }

/-- The tier-4 absolute fallback (main.py 427-433). -/
def seasonBreak : NextRace :=
  { race_name := "Season Break"
    location := "Checking for upcoming races..."
    country := "Unknown"
    date := "TBD"
    time_left := "Season break" }

/-- `fetch_next_race` (main.py 330-433) instrumented with the list of Source
Gateway calls it issues, in order.  Tier 1: primary season list, first future
race by start time.  Tier 2: OpenF1 meetings (truthiness check on the list).
Tier 3: first race of next year's primary list (an empty `races` list raises
`IndexError` into the tier's own handler).  Tier 4: static placeholder. -/
def fetch_next_race_traced (gw : Gateway) (now year : Int) : NextRace × List NQuery :=
  let t1 := [NQuery.primRaces year]
  let afterT1 :=
    let t2 := t1 ++ [NQuery.meetings year]
    let afterT2 :=
      let t3 := t2 ++ [NQuery.primRaces (year + 1)]
      match gw.primRaces (year + 1) with
      | some (r :: _) => (mkTier3 r (year + 1) now, t3)
      | _ => (seasonBreak, t3)
    match gw.meetings year with
    | some (m :: ms) =>
      match tier2Pick (m :: ms) now with
      | some (mr, t) => (mkTier2 mr t now, t2)
      | none => afterT2
    | _ => afterT2
  match gw.primRaces year with
  | some races =>
    match tier1Pick races now with
    | some (r, t) => (mkTier1 r t now, t1)
    | none => afterT1
  | none => afterT1

/-- `fetch_next_race` (main.py 330-433): the resolver's value, forgetting the
trace. -/
def fetch_next_race (gw : Gateway) (now year : Int) : NextRace :=
  (fetch_next_race_traced gw now year).1

/-- Points credited to car `n` by one session of the standings derivation: the
points of the final classified position the session's records give `n`, `0`
when the car does not appear or the session has no position data. -/
def sessionPts (gw : Gateway) (s : SessionRec) (n : Nat) : Nat :=
  match posList gw s with
  | [] => 0
  | ps =>
    match lookupV (finalPositions ps) n with
    | none => 0
    | some p => pointsFor p.position

/-- Accumulated points stored under a key of the `driver_points` dict
(`0` when absent). -/
def ptsAtD (dp : List (DKey × DVal)) (k : DKey) : Nat :=
  match lookupV dp k with
  | none => 0
  | some v => v.points

/-- The position-field invariant of a standings list: positions are exactly
`1..k` in list order for `k = length ≤ 10`. -/
def positionsOkD (l : List Driver) : Prop :=
  l.map (·.position) = List.range' 1 l.length ∧ l.length ≤ 10

/-- `positionsOkD` for team standings. -/
def positionsOkT (l : List Team) : Prop :=
  l.map (·.position) = List.range' 1 l.length ∧ l.length ≤ 10

/-- The full standings invariant claimed by the spec for driver lists:
positions exactly `1..k`, `k ≤ 10`, and points non-increasing in list order. -/
def standingsInvD (l : List Driver) : Prop :=
  positionsOkD l ∧ (l.map (·.points)).Pairwise (fun a b => b ≤ a)

/-- The full standings invariant for team lists. -/
def standingsInvT (l : List Team) : Prop :=
  positionsOkT l ∧ (l.map (·.points)).Pairwise (fun a b => b ≤ a)

/-- The spec's description of the lap-time rendering, stated independently for
comparison with `format_lap_time`: minutes are the integer floor of the
duration over 60, then a colon, then the seconds (duration mod 60) with three
decimal places, zero-padded to width 6 counting the decimal point. -/
def lapTimeSpec (ms : Nat) : String :=
  String.mk (natChars (ms / 60000) ++ ':' ::
    (padZ 2 (natChars (ms % 60000 / 1000)) ++ '.' :: padZ 3 (natChars (ms % 60000 % 1000))))

/-- The spec's description of the countdown rendering, stated independently for
comparison with `calculate_time_left`: with `Δ` the non-negative remaining
seconds, days are `Δ / 86400`, hours `(Δ / 3600) mod 24`, minutes
`(Δ / 60) mod 60`. -/
def countdownSpec (t now : Int) : String :=
  let Δ := t - now
  if Δ < 0 then "Race completed"
  else if 0 < Δ / 86400 then
    toString (Δ / 86400) ++ " days, " ++ toString (Δ / 3600 % 24) ++ " hours"
  else if 0 < Δ / 3600 % 24 then
    toString (Δ / 3600 % 24) ++ " hours, " ++ toString (Δ / 60 % 60) ++ " minutes"
  else toString (Δ / 60 % 60) ++ " minutes"

/-- The Source Gateway behavior in which every upstream call fails (timeout,
transport error, or non-200): total upstream unavailability. -/
def gwAbsent : Gateway :=
  { sessionsByYear := fun _ => none
    positionsBySession := fun _ => none
    lapsBySession := fun _ => none
    primDriverStandings := none
    primTeamStandings := none
    primRaces := fun _ => none
    meetings := fun _ => none }

/-- A completed 2025 race session used by the concrete behaviors below. -/
def sess1 : SessionRec :=
  { session_key := 1001
    meeting_name := some "Test Grand Prix"
    date_start := some "2025-05-04T13:00:00+00:00"
    date_end := some (some 50) }

/-- A valid 90-second lap by car 4 (Lando Norris). -/
def lapNorris : LapRec :=
  { driver_number := 4, lap_duration := some 90000, lap_number := some 23 }

/-- A gateway behavior with one completed session whose lap data holds a single
valid lap: the fastest-lap success path up to the sector-enrichment call. -/
def gwLap : Gateway :=
  { gwAbsent with
    sessionsByYear := fun y => if y = 2025 then some [sess1] else none
    lapsBySession := fun k => if k = 1001 then some [lapNorris] else none }

/-- A gateway behavior with one completed session whose lap data is non-empty
but contains no valid lap (a null duration). -/
def gwEmptyLaps : Gateway :=
  { gwAbsent with
    sessionsByYear := fun y => if y = 2025 then some [sess1] else none
    lapsBySession := fun k =>
      if k = 1001 then some [{ driver_number := 7, lap_duration := none, lap_number := none }]
      else none }

/-- A primary-provider driver-standings response whose list is not sorted by
points (1 point ahead of 5 points). -/
def gwUnsorted : Gateway :=
  { gwAbsent with
    primDriverStandings := some
      [{ driver_name := some "A", name := none, abbreviation := some "AAA", code := none,
         team := some "T1", constructorName := none, points := some (.jnum 1) },
       { driver_name := some "B", name := none, abbreviation := some "BBB", code := none,
         team := some "T2", constructorName := none, points := some (.jnum 5) }] }

/-- A driver-standings entry whose points value is non-numeric, so the
`float(...)` conversion raises mid-processing. -/
def junkEntry : PrimDriverEntry :=
  { driver_name := some "A", name := none, abbreviation := some "AAA", code := none,
    team := some "T1", constructorName := none, points := some .jjunk }

/-- A gateway behavior combining the completed session with a valid lap and a
primary driver-standings response whose processing raises mid-computation. -/
def gwFault : Gateway :=
  { gwLap with primDriverStandings := some [junkEntry] }

/-- A primary-provider race listed after a sooner one (start instant 200). -/
def raceLater : RaceEntry :=
  { race_name := some "Later GP", name := none, location := some "L1",
    circuit := none, country := some "C1", date := some (.full 200) }

/-- The earliest upcoming race of the season list (start instant 150). -/
def raceSooner : RaceEntry :=
  { race_name := some "Sooner GP", name := none, location := some "L2",
    circuit := none, country := some "C2", date := some (.full 150) }

/-- A primary-provider season list with two future races (the later one listed
first), plus a secondary-provider meeting list that must never be consulted. -/
def gwNextT1 : Gateway :=
  { gwAbsent with
    primRaces := fun y => if y = 2025 then some [raceLater, raceSooner] else none
    meetings := fun _ => some
      [{ meeting_name := some "Decoy Meeting", location := some "X",
         country_name := some "Y", date_start := some 300 }] }

/-- Decidable equality of `Except` results, for evaluating the modelled
`try`-block outcomes on concrete inputs. -/
instance {ε α : Type} [DecidableEq ε] [DecidableEq α] : DecidableEq (Except ε α) := fun a b =>
  match a, b with
  | .error e, .error f =>
    decidable_of_iff (e = f) ⟨fun h => h ▸ rfl, fun h => by cases h; rfl⟩
  | .ok x, .ok y =>
    decidable_of_iff (x = y) ⟨fun h => h ▸ rfl, fun h => by cases h; rfl⟩
  | .error _, .ok _ => isFalse (fun h => Except.noConfusion h)
  | .ok _, .error _ => isFalse (fun h => Except.noConfusion h)

/-- Order instances for the stable descending sorts of the standings lists. -/
instance : IsTotal (DKey × DVal) (fun a b => b.2.points ≤ a.2.points) :=
  ⟨fun a b => Nat.le_total b.2.points a.2.points⟩

instance : IsTrans (DKey × DVal) (fun a b => b.2.points ≤ a.2.points) :=
  ⟨fun _ _ _ hab hbc => le_trans hbc hab⟩

instance : IsTotal (String × Nat) (fun a b => b.2 ≤ a.2) :=
  ⟨fun a b => Nat.le_total b.2 a.2⟩

instance : IsTrans (String × Nat) (fun a b => b.2 ≤ a.2) :=
  ⟨fun _ _ _ hab hbc => le_trans hbc hab⟩

/-! Association-list lemmas. -/

theorem lookupV_append {κ α : Type} [DecidableEq κ] (l₁ l₂ : List (κ × α)) (k : κ) :
    lookupV (l₁ ++ l₂) k =
      match lookupV l₁ k with
      | some v => some v
      | none => lookupV l₂ k := by
  induction l₁ with
  | nil => simp [lookupV]
  | cons kv r ih =>
    obtain ⟨k', v⟩ := kv
    by_cases h : k' = k <;> simp [lookupV, h, ih]

theorem lookupV_setVal {κ α : Type} [DecidableEq κ] (m : List (κ × α)) (k : κ) (v : α) (k' : κ) :
    lookupV (setVal m k v) k' =
      if k' = k then (lookupV m k).map (fun _ => v) else lookupV m k' := by
  induction m with
  | nil => by_cases h : k' = k <;> simp [setVal, lookupV, h]
  | cons kv r ih =>
    obtain ⟨k₀, v₀⟩ := kv
    by_cases h0 : k₀ = k
    · subst h0
      by_cases h1 : k' = k₀
      · simp [setVal, lookupV, h1]
      · have h2 : ¬k₀ = k' := fun e => h1 e.symm
        simp [setVal, lookupV, h1, h2]
    · by_cases h1 : k' = k
      · subst h1
        have h2 : ¬k₀ = k' := h0
        simp [setVal, lookupV, h0, h2, ih]
      · by_cases h2 : k₀ = k' <;> simp [setVal, lookupV, h0, h1, h2, ih]

theorem keys_setVal {κ α : Type} [DecidableEq κ] (m : List (κ × α)) (k : κ) (v : α) :
    (setVal m k v).map Prod.fst = m.map Prod.fst := by
  induction m with
  | nil => simp [setVal]
  | cons kv r ih =>
    obtain ⟨k₀, v₀⟩ := kv
    by_cases h : k₀ = k <;> simp [setVal, h, ih]

theorem lookupV_eq_none_iff {κ α : Type} [DecidableEq κ] (m : List (κ × α)) (k : κ) :
    lookupV m k = none ↔ k ∉ m.map Prod.fst := by
  induction m with
  | nil => simp [lookupV]
  | cons kv r ih =>
    obtain ⟨k₀, v₀⟩ := kv
    by_cases h : k₀ = k
    · subst h
      simp [lookupV]
    · have h' : ¬k = k₀ := fun e => h e.symm
      simp [lookupV, h, ih, h', not_or]

theorem mem_of_lookupV {κ α : Type} [DecidableEq κ] {m : List (κ × α)} {k : κ} {v : α}
    (h : lookupV m k = some v) : (k, v) ∈ m := by
  induction m with
  | nil => simp [lookupV] at h
  | cons kv r ih =>
    obtain ⟨k₀, v₀⟩ := kv
    by_cases h0 : k₀ = k
    · subst h0
      simp [lookupV] at h
      simp [h]
    · simp [lookupV, h0] at h
      exact List.mem_cons_of_mem _ (ih h)

theorem lookupV_of_mem_nodup {κ α : Type} [DecidableEq κ] {m : List (κ × α)} {k : κ} {v : α}
    (hn : (m.map Prod.fst).Nodup) (h : (k, v) ∈ m) : lookupV m k = some v := by
  induction m with
  | nil => simp at h
  | cons kv r ih =>
    obtain ⟨k₀, v₀⟩ := kv
    simp only [List.map_cons, List.nodup_cons] at hn
    rcases List.mem_cons.1 h with h1 | h1
    · rw [Prod.mk.injEq] at h1
      obtain ⟨hk, hv⟩ := h1
      subst hk
      simp [lookupV, hv]
    · have hk : ¬k₀ = k := fun e => hn.1 (by rw [e]; exact List.mem_map_of_mem Prod.fst h1)
      simp [lookupV, hk, ih hn.2 h1]

/-! Characterization of the `keepBest` dict-accumulation pattern. -/

section KeepBest

variable {κ α : Type} [DecidableEq κ] (φ : α → Bool) (key : α → κ) (better : α → α → Bool)

theorem keys_keepBest (m : List (κ × α)) (x : α) :
    (keepBest φ key better m x).map Prod.fst = m.map Prod.fst ∨
      ((keepBest φ key better m x).map Prod.fst = m.map Prod.fst ++ [key x] ∧
        lookupV m (key x) = none) := by
  by_cases hφ : φ x
  · cases hl : lookupV m (key x) with
    | none => right; simp [keepBest, hφ, hl]
    | some cur =>
      left
      by_cases hb : better x cur <;> simp [keepBest, hφ, hl, hb, keys_setVal]
  · left; simp [keepBest, hφ]

theorem nodupKeys_keepBest {m : List (κ × α)} (hn : (m.map Prod.fst).Nodup) (x : α) :
    ((keepBest φ key better m x).map Prod.fst).Nodup := by
  rcases keys_keepBest φ key better m x with h | ⟨h, hl⟩
  · rw [h]; exact hn
  · rw [h]
    have : key x ∉ m.map Prod.fst := (lookupV_eq_none_iff m (key x)).1 hl
    simp [List.nodup_append, hn, this]

theorem keys_subset_keepBest (m : List (κ × α)) (x : α) :
    m.map Prod.fst ⊆ (keepBest φ key better m x).map Prod.fst := by
  rcases keys_keepBest φ key better m x with h | ⟨h, _⟩ <;> rw [h]
  · exact fun a ha => ha
  · exact fun a ha => List.mem_append_left _ ha

theorem nodupKeys_foldl_keepBest (l : List α) :
    ∀ m : List (κ × α), (m.map Prod.fst).Nodup →
      ((l.foldl (keepBest φ key better) m).map Prod.fst).Nodup := by
  induction l with
  | nil => exact fun m hn => hn
  | cons x r ih => exact fun m hn => ih _ (nodupKeys_keepBest φ key better hn x)

theorem keys_subset_foldl_keepBest (l : List α) :
    ∀ m : List (κ × α), m.map Prod.fst ⊆ (l.foldl (keepBest φ key better) m).map Prod.fst := by
  induction l with
  | nil => exact fun m a ha => ha
  | cons x r ih =>
    exact fun m a ha => ih (keepBest φ key better m x) (keys_subset_keepBest φ key better m x ha)

theorem lookupV_keepBest_origin {m : List (κ × α)} {x : α} {k : κ} {v : α}
    (h : lookupV (keepBest φ key better m x) k = some v) :
    lookupV m k = some v ∨ (v = x ∧ φ x ∧ key x = k) := by
  by_cases hφ : φ x
  · cases hl : lookupV m (key x) with
    | none =>
      simp only [keepBest, hφ, if_true, hl] at h
      rw [lookupV_append] at h
      cases hm : lookupV m k with
      | some w =>
        simp only [hm] at h
        exact Or.inl h
      | none =>
        simp only [hm] at h
        by_cases hk : key x = k
        · simp [lookupV, hk] at h
          exact Or.inr ⟨h.symm, hφ, hk⟩
        · simp [lookupV, hk] at h
    | some cur =>
      simp only [keepBest, hφ, if_true, hl] at h
      by_cases hb : better x cur
      · simp only [hb, if_true] at h
        rw [lookupV_setVal, hl] at h
        by_cases hk : k = key x
        · simp only [hk, if_true, Option.map_some] at h
          exact Or.inr ⟨(Option.some.injEq .. ▸ h).symm, hφ, hk.symm⟩
        · rw [if_neg hk] at h
          exact Or.inl h
      · simp only [hb, if_false] at h
        exact Or.inl h
  · simp only [keepBest, hφ, if_false] at h
    exact Or.inl h

theorem lookupV_keepBest_replace {m : List (κ × α)} {x : α} {k : κ} {v : α} (hφ : φ x)
    {cur : α} (hl : lookupV m (key x) = some cur) (hb : better x cur)
    (h : lookupV (keepBest φ key better m x) k = some v) :
    (k = key x ∧ v = x) ∨ (k ≠ key x ∧ lookupV m k = some v) := by
  simp only [keepBest, hφ, if_true, hl, hb] at h
  rw [lookupV_setVal, hl] at h
  by_cases hk : k = key x
  · simp only [hk, if_true, Option.map_some] at h
    exact Or.inl ⟨hk, (Option.some.injEq .. ▸ h).symm⟩
  · rw [if_neg hk] at h
    exact Or.inr ⟨hk, h⟩

theorem lookupV_foldl_keepBest_origin (l : List α) :
    ∀ (m : List (κ × α)) (k : κ) (v : α),
      lookupV (l.foldl (keepBest φ key better) m) k = some v →
        lookupV m k = some v ∨ (φ v ∧ v ∈ l ∧ key v = k) := by
  induction l with
  | nil => exact fun m k v h => Or.inl h
  | cons x r ih =>
    intro m k v h
    rcases ih (keepBest φ key better m x) k v h with h1 | h1
    · rcases lookupV_keepBest_origin φ key better h1 with h2 | ⟨h2, h3, h4⟩
      · exact Or.inl h2
      · exact Or.inr ⟨h2 ▸ h3, by simp [h2], h2 ▸ h4⟩
    · exact Or.inr ⟨h1.1, List.mem_cons_of_mem _ h1.2.1, h1.2.2⟩

theorem lookupV_keepBest_dom {m : List (κ × α)} {k : κ} {c : α}
    (htr : ∀ x y c, better x c → ¬better y c → ¬better y x)
    (hl : lookupV m k = some c) (x : α) :
    ∃ v, lookupV (keepBest φ key better m x) k = some v ∧
      ∀ z, ¬better z c → ¬better z v := by
  by_cases hφ : φ x
  · cases hx : lookupV m (key x) with
    | none =>
      refine ⟨c, ?_, fun z hz => hz⟩
      simp only [keepBest, hφ, if_true, hx]
      rw [lookupV_append, hl]
    | some cur =>
      by_cases hb : better x cur
      · by_cases hk : k = key x
        · have hc : cur = c := by
            rw [hk] at hl
            rw [hl] at hx
            exact (Option.some.injEq .. ▸ hx).symm
          refine ⟨x, ?_, fun z hz => htr x z c (hc ▸ hb) hz⟩
          simp only [keepBest, hφ, if_true, hx, hb, if_true]
          rw [lookupV_setVal, hx]
          simp [hk]
        · refine ⟨c, ?_, fun z hz => hz⟩
          simp only [keepBest, hφ, if_true, hx, hb, if_true]
          rw [lookupV_setVal, if_neg hk]
          exact hl
      · refine ⟨c, ?_, fun z hz => hz⟩
        simp only [keepBest, hφ, if_true, hx, hb, if_false]
        exact hl
  · refine ⟨c, ?_, fun z hz => hz⟩
    simp only [keepBest, hφ, if_false]
    exact hl

theorem lookupV_foldl_keepBest_dom (htr : ∀ x y c, better x c → ¬better y c → ¬better y x)
    (l : List α) :
    ∀ (m : List (κ × α)) (k : κ) (c : α), lookupV m k = some c →
      ∃ v, lookupV (l.foldl (keepBest φ key better) m) k = some v ∧
        ∀ z, ¬better z c → ¬better z v := by
  induction l with
  | nil => exact fun m k c hl => ⟨c, hl, fun z hz => hz⟩
  | cons x r ih =>
    intro m k c hl
    obtain ⟨w, hw, hwd⟩ := lookupV_keepBest_dom φ key better htr hl x
    obtain ⟨v, hv, hvd⟩ := ih (keepBest φ key better m x) k w hw
    exact ⟨v, hv, fun z hz => hvd z (hwd z hz)⟩

theorem lookupV_foldl_keepBest_max (hirr : ∀ x, ¬better x x)
    (htr : ∀ x y c, better x c → ¬better y c → ¬better y x) (l : List α) :
    ∀ (m : List (κ × α)) (k : κ) (v : α),
      lookupV (l.foldl (keepBest φ key better) m) k = some v →
        ∀ x ∈ l, φ x → key x = k → ¬better x v := by
  induction l with
  | nil => intro m k v _ x hx; simp at hx
  | cons x₀ r ih =>
    intro m k v h x hx hφ hk
    rcases List.mem_cons.1 hx with h1 | h1
    · subst h1
      have hc : ∃ c, lookupV (keepBest φ key better m x) k = some c ∧ ¬better x c := by
        cases hx0 : lookupV m (key x) with
        | none =>
          refine ⟨x, ?_, hirr x⟩
          simp only [keepBest, hφ, if_true, hx0]
          rw [lookupV_append, ← hk]
          rw [(lookupV_eq_none_iff ..).2 ((lookupV_eq_none_iff ..).1 hx0)]
          simp [lookupV]
        | some cur =>
          by_cases hb : better x cur
          · refine ⟨x, ?_, hirr x⟩
            simp only [keepBest, hφ, if_true, hx0, hb, if_true]
            rw [lookupV_setVal, hx0, ← hk]
            simp
          · refine ⟨cur, ?_, hb⟩
            simp only [keepBest, hφ, if_true, hx0, hb, if_false]
            rw [← hk]
            exact hx0
      obtain ⟨c, hcl, hcd⟩ := hc
      obtain ⟨w, hw, hwd⟩ := lookupV_foldl_keepBest_dom φ key better htr r _ k c hcl
      have : w = v := by
        rw [List.foldl_cons] at h
        rw [hw] at h
        exact Option.some.inj h
      exact this ▸ hwd x hcd
    · exact ih _ k v h x h1 hφ hk

theorem lookupV_some_mem_keys {κ α : Type} [DecidableEq κ] {m : List (κ × α)} {k : κ} {v : α}
    (h : lookupV m k = some v) : k ∈ m.map Prod.fst :=
  List.mem_map_of_mem Prod.fst (mem_of_lookupV h)

theorem key_mem_foldl_keepBest (l : List α) :
    ∀ (m : List (κ × α)) (x : α), x ∈ l → φ x →
      key x ∈ (l.foldl (keepBest φ key better) m).map Prod.fst := by
  induction l with
  | nil => intro m x hx; simp at hx
  | cons x₀ r ih =>
    intro m x hx hφ
    rcases List.mem_cons.1 hx with h1 | h1
    · subst h1
      have : key x ∈ (keepBest φ key better m x).map Prod.fst := by
        cases hx0 : lookupV m (key x) with
        | none => simp [keepBest, hφ, hx0]
        | some cur =>
          have hm : key x ∈ m.map Prod.fst := lookupV_some_mem_keys hx0
          by_cases hb : better x cur
          · simp only [keepBest, hφ, if_true, hx0, hb, if_true, keys_setVal]
            exact hm
          · simp only [keepBest, hφ, if_true, hx0, hb, if_false]
            exact hm
      exact keys_subset_foldl_keepBest φ key better r _ this
    · exact ih _ x h1 hφ

theorem keepBest_ne_nil {m : List (κ × α)} (hm : m ≠ []) (x : α) :
    keepBest φ key better m x ≠ [] := by
  by_cases hφ : φ x
  · cases hx : lookupV m (key x) with
    | none =>
      simp only [keepBest, hφ, if_true, hx]
      simp [hm]
    | some cur =>
      by_cases hb : better x cur
      · simp only [keepBest, hφ, if_true, hx, hb, if_true]
        cases m with
        | nil => exact absurd rfl hm
        | cons kv r =>
          obtain ⟨k₀, v₀⟩ := kv
          by_cases hk : k₀ = key x <;> simp [setVal, hk]
      · simp only [keepBest, hφ, if_true, hx, hb, if_false]
        exact hm
  · simp only [keepBest, hφ, if_false]
    exact hm

theorem foldl_keepBest_ne_nil (l : List α) :
    ∀ m : List (κ × α), m ≠ [] → l.foldl (keepBest φ key better) m ≠ [] := by
  induction l with
  | nil => exact fun m hm => hm
  | cons x r ih => exact fun m hm => ih _ (keepBest_ne_nil φ key better hm x)

theorem collectBest_eq_nil_iff (l : List α) :
    collectBest φ key better l = [] ↔ ∀ x ∈ l, ¬φ x := by
  constructor
  · intro h x hx hφ
    have := key_mem_foldl_keepBest φ key better l [] x hx hφ
    rw [collectBest] at h
    rw [h] at this
    simp at this
  · intro h
    rw [collectBest]
    induction l with
    | nil => rfl
    | cons x r ih =>
      have hφ : ¬φ x := h x (List.mem_cons_self x r)
      simp only [List.foldl_cons, keepBest, hφ, if_false]
      exact ih (fun y hy => h y (List.mem_cons_of_mem _ hy))

end KeepBest

/-! `finalPositions` characterization. -/

theorem finalPositions_nodup_keys (ps : List PositionRec) :
    ((finalPositions ps).map Prod.fst).Nodup :=
  nodupKeys_foldl_keepBest _ _ _ ps [] (by simp)

theorem finalPositions_mem {ps : List PositionRec} {k : Nat} {p : PositionRec}
    (h : (k, p) ∈ finalPositions ps) :
    p.driver_number = k ∧ p ∈ ps ∧ ∀ q ∈ ps, q.driver_number = k → q.date ≤ p.date := by
  have hl : lookupV (finalPositions ps) k = some p :=
    lookupV_of_mem_nodup (finalPositions_nodup_keys ps) h
  simp only [finalPositions, collectBest] at hl
  have horig := lookupV_foldl_keepBest_origin (fun _ => true)
    (fun x : PositionRec => x.driver_number)
    (fun p cur => cur.date < p.date) ps [] k p hl
  have hmax := lookupV_foldl_keepBest_max (fun _ => true)
    (fun x : PositionRec => x.driver_number)
    (fun p cur => cur.date < p.date) (fun x => by simp)
    (fun x y c h1 h2 => by simp at h1 h2 ⊢; omega) ps [] k p hl
  rcases horig with h1 | ⟨_, h2, h3⟩
  · simp [lookupV] at h1
  · refine ⟨h3, h2, fun q hq hqk => ?_⟩
    have := hmax q hq (by simp) hqk
    simp at this
    omega

theorem finalPositions_keys_iff (ps : List PositionRec) (n : Nat) :
    n ∈ (finalPositions ps).map Prod.fst ↔ n ∈ ps.map (·.driver_number) := by
  constructor
  · intro h
    rcases List.mem_map.1 h with ⟨⟨k, p⟩, hmem, hk⟩
    obtain ⟨h1, h2, _⟩ := finalPositions_mem hmem
    exact List.mem_map.2 ⟨p, h2, by simp at hk ⊢; rw [h1, hk]⟩
  · intro h
    rcases List.mem_map.1 h with ⟨p, hmem, hk⟩
    have := key_mem_foldl_keepBest (fun _ => true)
      (fun x : PositionRec => x.driver_number)
      (fun p cur => cur.date < p.date) ps [] p hmem (by simp)
    simp only [finalPositions, collectBest]
    exact hk ▸ this

/-! `driverBestLaps` emptiness. -/

theorem driverBestLaps_eq_nil_iff (laps : List LapRec) :
    driverBestLaps laps = [] ↔ laps.filter validLap = [] := by
  rw [driverBestLaps, collectBest_eq_nil_iff, List.filter_eq_nil_iff]

/-! Points accumulation. -/

theorem ptsAtD_addPtsD (dp : List (DKey × DVal)) (k' : DKey) (pts : Nat) (info : DriverInfoT)
    (k : DKey) :
    ptsAtD (addPtsD dp k' pts info) k = ptsAtD dp k + (if k = k' then pts else 0) := by
  by_cases hk : k = k'
  · subst hk
    unfold addPtsD
    cases hl : lookupV dp k with
    | none =>
      unfold ptsAtD
      rw [lookupV_append, hl]
      simp [lookupV]
    | some v =>
      unfold ptsAtD
      rw [lookupV_setVal]
      simp [hl]
  · unfold addPtsD
    cases hl : lookupV dp k' with
    | none =>
      unfold ptsAtD
      rw [lookupV_append]
      cases hm : lookupV dp k with
      | none =>
        have hk2 : ¬k' = k := fun e => hk e.symm
        simp [lookupV, hk, hk2]
      | some v => simp [hk]
    | some v =>
      unfold ptsAtD
      rw [lookupV_setVal, if_neg hk]
      simp [hk]

theorem dkey_eq_iff (n m : Nat) :
    ((n, (driverInfo n).name) : DKey) = (m, (driverInfo m).name) ↔ m = n := by
  constructor
  · intro h
    exact (congrArg Prod.fst h).symm
  · intro h
    subst h
    rfl

theorem ptsAtD_procFinalsD (fins : List (Nat × PositionRec)) :
    ∀ (dp : List (DKey × DVal)) (n : Nat),
      ptsAtD (procFinalsD dp fins) (n, (driverInfo n).name) =
        ptsAtD dp (n, (driverInfo n).name) +
          ((fins.filter (fun kv => kv.1 = n)).map (fun kv => pointsFor kv.2.position)).sum := by
  induction fins with
  | nil => simp [procFinalsD]
  | cons kv r ih =>
    intro dp n
    rw [procFinalsD, List.foldl_cons]
    have step := ih (addPtsD dp (kv.1, (driverInfo kv.1).name) (pointsFor kv.2.position)
      (driverInfo kv.1)) n
    rw [procFinalsD] at step
    rw [step, ptsAtD_addPtsD]
    by_cases hk : kv.1 = n
    · rw [if_pos ((dkey_eq_iff n kv.1).2 hk), List.filter_cons_of_pos (by simpa using hk),
        List.map_cons, List.sum_cons]
      omega
    · rw [if_neg (fun e => hk ((dkey_eq_iff n kv.1).1 e)),
        List.filter_cons_of_neg (by simpa using hk)]
      omega

theorem sum_filter_eq_lookupV (n : Nat) (g : Nat × PositionRec → Nat) :
    ∀ m : List (Nat × PositionRec), (m.map Prod.fst).Nodup →
      ((m.filter (fun kv => kv.1 = n)).map g).sum =
        (match lookupV m n with
         | none => 0
         | some p => g (n, p)) := by
  intro m
  induction m with
  | nil => simp [lookupV]
  | cons kv r ih =>
    intro hn
    obtain ⟨k₀, v₀⟩ := kv
    simp only [List.map_cons, List.nodup_cons] at hn
    by_cases hk : k₀ = n
    · subst hk
      have : r.filter (fun kv => kv.1 = k₀) = [] := by
        rw [List.filter_eq_nil_iff]
        intro kv hkv hc
        simp at hc
        exact hn.1 (hc ▸ List.mem_map_of_mem Prod.fst hkv)
      simp [lookupV, List.filter_cons_of_pos, this]
    · have hk2 : ¬(k₀, v₀).1 = n := hk
      rw [List.filter_cons_of_neg (by simp [hk2]), ih hn.2]
      simp [lookupV, hk]

theorem ptsAtD_session_step (gw : Gateway) (s : SessionRec) (dp : List (DKey × DVal)) (n : Nat) :
    ptsAtD (match posList gw s with
            | [] => dp
            | ps => procFinalsD dp (finalPositions ps)) (n, (driverInfo n).name) =
      ptsAtD dp (n, (driverInfo n).name) + sessionPts gw s n := by
  rw [sessionPts]
  cases hp : posList gw s with
  | nil => simp
  | cons p ps =>
    rw [ptsAtD_procFinalsD]
    rw [sum_filter_eq_lookupV n (fun kv => pointsFor kv.2.position) _
      (finalPositions_nodup_keys (p :: ps))]

theorem ptsAtD_driverPointsOf_aux (gw : Gateway) (ss : List SessionRec) :
    ∀ (dp : List (DKey × DVal)) (n : Nat),
      ptsAtD (ss.foldl (fun dp s =>
          match posList gw s with
          | [] => dp
          | ps => procFinalsD dp (finalPositions ps)) dp) (n, (driverInfo n).name) =
        ptsAtD dp (n, (driverInfo n).name) + (ss.map (fun s => sessionPts gw s n)).sum := by
  induction ss with
  | nil => simp
  | cons s ss ih =>
    intro dp n
    rw [List.foldl_cons, ih, ptsAtD_session_step]
    simp
    omega

theorem ptsAtD_driverPointsOf (gw : Gateway) (ss : List SessionRec) (n : Nat) :
    ptsAtD (driverPointsOf gw ss) (n, (driverInfo n).name) =
      (ss.map (fun s => sessionPts gw s n)).sum := by
  rw [driverPointsOf, ptsAtD_driverPointsOf_aux]
  simp [ptsAtD, lookupV]

/-! Ranked-list structure. -/

theorem rankD_length (l : List (DKey × DVal)) : ∀ i, (rankD i l).length = l.length := by
  induction l with
  | nil => intro i; rfl
  | cons kv r ih => intro i; simp [rankD, ih]

theorem rankD_map_position (l : List (DKey × DVal)) :
    ∀ i, (rankD i l).map (·.position) = List.range' (i + 1) l.length := by
  induction l with
  | nil => intro i; rfl
  | cons kv r ih =>
    intro i
    rw [rankD, List.map_cons, List.length_cons, List.range'_succ _ _ 1, ih (i + 1)]

theorem rankD_map_points (l : List (DKey × DVal)) :
    ∀ i, (rankD i l).map (·.points) = l.map (fun kv => (kv.2.points : ℚ)) := by
  induction l with
  | nil => intro i; rfl
  | cons kv r ih => intro i; simp [rankD, ih]

theorem rankT_length (l : List (String × Nat)) : ∀ i, (rankT i l).length = l.length := by
  induction l with
  | nil => intro i; rfl
  | cons kv r ih => intro i; simp [rankT, ih]

theorem rankT_map_position (l : List (String × Nat)) :
    ∀ i, (rankT i l).map (·.position) = List.range' (i + 1) l.length := by
  induction l with
  | nil => intro i; rfl
  | cons kv r ih =>
    intro i
    rw [rankT, List.map_cons, List.length_cons, List.range'_succ _ _ 1, ih (i + 1)]

theorem rankT_map_points (l : List (String × Nat)) :
    ∀ i, (rankT i l).map (·.points) = l.map (fun kv => (kv.2 : ℚ)) := by
  induction l with
  | nil => intro i; rfl
  | cons kv r ih => intro i; simp [rankT, ih]

theorem buildPrimD_ok (es : List PrimDriverEntry) :
    ∀ i l, buildPrimD i es = .ok l →
      l.map (·.position) = List.range' (i + 1) l.length ∧ l.length = es.length := by
  induction es with
  | nil =>
    intro i l h
    simp only [buildPrimD] at h
    cases h
    simp
  | cons e r ih =>
    intro i l h
    simp only [buildPrimD] at h
    cases hp : floatOf e.points with
    | error u =>
      rw [hp] at h
      simp only [Bind.bind, Except.bind] at h
      exact Except.noConfusion h
    | ok q =>
      rw [hp] at h
      cases hr : buildPrimD (i + 1) r with
      | error u =>
        rw [hr] at h
        simp only [Bind.bind, Except.bind] at h
        exact Except.noConfusion h
      | ok rest =>
        rw [hr] at h
        simp only [Bind.bind, Except.bind, Functor.map, Except.map, Pure.pure, Except.pure, Except.ok.injEq] at h
        obtain ⟨h1, h2⟩ := ih (i + 1) rest hr
        subst h
        constructor
        · rw [List.map_cons, List.length_cons, List.range'_succ _ _ 1, h1]
        · simp [h2]

theorem buildPrimT_ok (es : List PrimTeamEntry) :
    ∀ i l, buildPrimT i es = .ok l →
      l.map (·.position) = List.range' (i + 1) l.length ∧ l.length = es.length := by
  induction es with
  | nil =>
    intro i l h
    simp only [buildPrimT] at h
    cases h
    simp
  | cons e r ih =>
    intro i l h
    simp only [buildPrimT] at h
    cases hp : floatOf e.points with
    | error u =>
      rw [hp] at h
      simp only [Bind.bind, Except.bind] at h
      exact Except.noConfusion h
    | ok q =>
      rw [hp] at h
      cases hr : buildPrimT (i + 1) r with
      | error u =>
        rw [hr] at h
        simp only [Bind.bind, Except.bind] at h
        exact Except.noConfusion h
      | ok rest =>
        rw [hr] at h
        simp only [Bind.bind, Except.bind, Functor.map, Except.map, Pure.pure, Except.pure, Except.ok.injEq] at h
        obtain ⟨h1, h2⟩ := ih (i + 1) rest hr
        subst h
        constructor
        · rw [List.map_cons, List.length_cons, List.range'_succ _ _ 1, h1]
        · simp [h2]

/-! Sortedness of the standings sorts. -/

theorem sortDriversDesc_pairwise (dp : List (DKey × DVal)) :
    (sortDriversDesc dp).Pairwise (fun a b => b.2.points ≤ a.2.points) :=
  List.sorted_insertionSort _ dp

theorem sortTeamsDesc_pairwise (tp : List (String × Nat)) :
    (sortTeamsDesc tp).Pairwise (fun a b => b.2 ≤ a.2) :=
  List.sorted_insertionSort _ tp

theorem standingsInvD_rankD (l : List (DKey × DVal))
    (hs : l.Pairwise (fun a b => b.2.points ≤ a.2.points)) (hlen : l.length ≤ 10) :
    standingsInvD (rankD 0 l) := by
  refine ⟨⟨?_, ?_⟩, ?_⟩
  · rw [rankD_map_position, rankD_length]
  · rw [rankD_length]; exact hlen
  · rw [rankD_map_points]
    exact (List.pairwise_map).2 (hs.imp fun h => by exact_mod_cast h)

theorem standingsInvT_rankT (l : List (String × Nat))
    (hs : l.Pairwise (fun a b => b.2 ≤ a.2)) (hlen : l.length ≤ 10) :
    standingsInvT (rankT 0 l) := by
  refine ⟨⟨?_, ?_⟩, ?_⟩
  · rw [rankT_map_position, rankT_length]
  · rw [rankT_length]; exact hlen
  · rw [rankT_map_points]
    exact (List.pairwise_map).2 (hs.imp fun h => by exact_mod_cast h)

theorem calculate_standings_inv (gw : Gateway) (year : Int) :
    standingsInvD (calculate_standings_from_results gw year).1 ∧
      standingsInvT (calculate_standings_from_results gw year).2 := by
  cases hss : resolvedSessions gw year with
  | nil =>
    simp only [calculate_standings_from_results, hss]
    constructor
    · unfold standingsInvD positionsOkD
      decide
    · unfold standingsInvT positionsOkT
      decide
  | cons s ss =>
    simp only [calculate_standings_from_results, hss]
    constructor
    · exact standingsInvD_rankD _
        ((sortDriversDesc_pairwise _).sublist (List.take_sublist ..))
        (by simp)
    · exact standingsInvT_rankT _
        ((sortTeamsDesc_pairwise _).sublist (List.take_sublist ..))
        (by simp)

theorem fetch_driver_standings_positionsOk (gw : Gateway) (year : Int) :
    positionsOkD (fetch_driver_standings gw year) := by
  cases hp : gw.primDriverStandings with
  | none =>
    simp only [fetch_driver_standings, hp]
    exact ((calculate_standings_inv gw year).1).1
  | some entries =>
    simp only [fetch_driver_standings, hp]
    cases hb : buildPrimD 0 (entries.take 10) with
    | error u =>
      simp only [hb]
      exact ((calculate_standings_inv gw year).1).1
    | ok l =>
      simp only [hb]
      obtain ⟨h1, h2⟩ := buildPrimD_ok (entries.take 10) 0 l hb
      exact ⟨h1, by rw [h2]; simp⟩

theorem fetch_constructor_standings_positionsOk (gw : Gateway) (year : Int) :
    positionsOkT (fetch_constructor_standings gw year) := by
  cases hp : gw.primTeamStandings with
  | none =>
    simp only [fetch_constructor_standings, hp]
    exact ((calculate_standings_inv gw year).2).1
  | some entries =>
    simp only [fetch_constructor_standings, hp]
    cases hb : buildPrimT 0 (entries.take 10) with
    | error u =>
      simp only [hb]
      exact ((calculate_standings_inv gw year).2).1
    | ok l =>
      simp only [hb]
      obtain ⟨h1, h2⟩ := buildPrimT_ok (entries.take 10) 0 l hb
      exact ⟨h1, by rw [h2]; simp⟩

/-! Case analysis of the fastest-lap fetchers. -/

theorem fetch_fastest_lap_always_fallback (gw : Gateway) (now year : Int) :
    fetch_fastest_lap gw now year = get_fallback_fastest_lap := by
  rw [fetch_fastest_lap]
  cases hsel : selectedSession gw now year with
  | error u => simp [fastestLapBody, Bind.bind, Except.bind, hsel]
  | ok osel =>
    cases osel with
    | none => simp [fastestLapBody, Bind.bind, Except.bind, hsel, Pure.pure, Except.pure]
    | some latest =>
      cases hlaps : gw.lapsBySession latest.session_key with
      | none => simp [fastestLapBody, Bind.bind, Except.bind, hsel, hlaps, Pure.pure, Except.pure]
      | some laps =>
        cases laps with
        | nil => simp [fastestLapBody, Bind.bind, Except.bind, hsel, hlaps, Pure.pure, Except.pure]
        | cons l ls =>
          cases hmin : minByDur ((l :: ls).filter validLap) with
          | none =>
            simp [fastestLapBody, Bind.bind, Except.bind, hsel, hlaps, hmin, Pure.pure,
              Except.pure]
          | some fl =>
            simp [fastestLapBody, Bind.bind, Except.bind, hsel, hlaps, hmin, nameErrorSectors]

theorem take10_ne_nil {α : Type} {l : List α} (h : l ≠ []) : l.take 10 ≠ [] := by
  cases l with
  | nil => exact absurd rfl h
  | cons x r => simp

theorem topLapsFrom_ne_nil {laps : List LapRec} (h : laps.filter validLap ≠ []) :
    topLapsFrom laps ≠ [] := by
  have hb : driverBestLaps laps ≠ [] := fun e => h ((driverBestLaps_eq_nil_iff laps).1 e)
  have hm : (driverBestLaps laps).map Prod.snd ≠ [] := by
    cases hc : driverBestLaps laps with
    | nil => exact absurd hc hb
    | cons kv r => simp
  have hs : (List.insertionSort (fun a b => durOf a ≤ durOf b)
      ((driverBestLaps laps).map Prod.snd)) ≠ [] := by
    intro e
    have := List.length_insertionSort (fun a b => durOf a ≤ durOf b)
      ((driverBestLaps laps).map Prod.snd)
    rw [e] at this
    simp at this
    exact hb (List.eq_nil_of_length_eq_zero this.symm)
  exact take10_ne_nil hs

theorem topLapsFrom_nil_of_filter_nil {laps : List LapRec} (h : laps.filter validLap = []) :
    topLapsFrom laps = [] := by
  rw [topLapsFrom, (driverBestLaps_eq_nil_iff laps).2 h]
  rfl

theorem fetch_fastest_laps_cases (gw : Gateway) (now year : Int) :
    fetch_fastest_laps gw now year =
      (if lapsDegenerate gw now year then [] else [get_fallback_fastest_lap]) := by
  rw [fetch_fastest_laps]
  cases hsel : selectedSession gw now year with
  | error u => simp [fastestLapsBody, lapsDegenerate, Bind.bind, Except.bind, hsel]
  | ok osel =>
    cases osel with
    | none =>
      simp [fastestLapsBody, lapsDegenerate, Bind.bind, Except.bind, hsel, Pure.pure, Except.pure]
    | some latest =>
      cases hlaps : gw.lapsBySession latest.session_key with
      | none =>
        simp [fastestLapsBody, lapsDegenerate, Bind.bind, Except.bind, hsel, hlaps, Pure.pure,
          Except.pure]
      | some laps =>
        cases laps with
        | nil =>
          simp [fastestLapsBody, lapsDegenerate, Bind.bind, Except.bind, hsel, hlaps, Pure.pure,
            Except.pure]
        | cons l ls =>
          by_cases hf : (l :: ls).filter validLap = []
          · have ht := topLapsFrom_nil_of_filter_nil hf
            simp [fastestLapsBody, lapsDegenerate, Bind.bind, Except.bind, hsel, hlaps, ht, hf,
              mapEx, Pure.pure, Except.pure]
          · have ht := topLapsFrom_ne_nil hf
            cases hc : topLapsFrom (l :: ls) with
            | nil => exact absurd hc ht
            | cons x r =>
              have hdeg : lapsDegenerate gw now year = false := by
                simp [lapsDegenerate, hsel, hlaps, List.isEmpty_iff, hf]
              rw [hdeg]
              simp [fastestLapsBody, Bind.bind, Except.bind, hsel, hlaps, hc, mapEx,
                nameErrorSectors]

/-! Lap-time and countdown rendering. -/

set_option maxRecDepth 10000 in
theorem natChars_len_le_3 : ∀ b, b < 1000 → (natChars b).length ≤ 3 := by decide

theorem padZ_split (A X : List Char) (hX : X.length = 3) :
    padZ 6 (A ++ '.' :: X) = padZ 2 A ++ '.' :: X := by
  rw [padZ, padZ]
  have h1 : (A ++ '.' :: X).length = A.length + 4 := by
    rw [List.length_append, List.length_cons, hX]
  rw [h1]
  have h2 : 6 - (A.length + 4) = 2 - A.length := by omega
  rw [h2, List.append_assoc]

theorem fmt63_eq (a : Nat) :
    fmt63 a = padZ 2 (natChars (a / 1000)) ++ '.' :: padZ 3 (natChars (a % 1000)) := by
  rw [fmt63]
  apply padZ_split
  have hb : (natChars (a % 1000)).length ≤ 3 :=
    natChars_len_le_3 (a % 1000) (Nat.mod_lt _ (by norm_num))
  rw [padZ, List.length_append, List.length_replicate]
  omega

theorem format_lap_time_eq_spec (ms : Nat) : format_lap_time ms = lapTimeSpec ms := by
  rw [format_lap_time, lapTimeSpec, fmt63_eq]

theorem calculate_time_left_eq_spec (t now : Int) :
    calculate_time_left (some t) now = countdownSpec t now := by
  rw [calculate_time_left, countdownSpec]
  by_cases h : t - now < 0
  · simp [h]
  · have h1 : (t - now) % 86400 / 3600 = (t - now) / 3600 % 24 := by omega
    have h2 : (t - now) % 86400 % 3600 / 60 = (t - now) / 60 % 60 := by omega
    simp only [h, if_false, h1, h2]

theorem calculate_time_left_shift (t now : Int) :
    calculate_time_left (some t) now = calculate_time_left (some (t - now)) 0 := by
  simp [calculate_time_left]

/-! Claim theorems. -/

/-- C1: the spec states that sector data is a best-effort enrichment whose
absence yields an empty sector sequence and never blocks or replaces the
primary lap result.  The code cannot honour this: the enrichment helper
`get_sector_times` is referenced but defined nowhere, so the call raises
`NameError` on the success path and the catch-all returns the static fallback.
Concretely: with one completed session whose only (and hence fastest) valid lap
belongs to car 4 (Lando Norris), the resolver selects that session and that
lap, yet returns the Max Verstappen fallback record instead of the Norris
lap. -/
theorem c1_fastest_lap_replaced_by_fallback :
    selectedSession gwLap 100 2025 = .ok (some sess1) ∧
    minByDur (((gwLap.lapsBySession sess1.session_key).getD []).filter validLap) =
      some lapNorris ∧
    (driverInfo lapNorris.driver_number).name = "Lando Norris" ∧
    fetch_fastest_lap gwLap 100 2025 = get_fallback_fastest_lap ∧
    get_fallback_fastest_lap.driver_name = "Max Verstappen" := by decide

/-- C2 (counterexample): the claim says `fetch_fastest_laps` returns exactly
the one-element fallback list for every behavior; but when the selected
session's lap list is non-empty with no valid lap, the per-driver best dict is
empty, the results loop never runs (never reaching the undefined
`get_sector_times`), and the empty list is returned. -/
theorem c2_empty_list_counterexample :
    fetch_fastest_laps gwEmptyLaps 100 2025 = [] ∧
    fetch_fastest_laps gwEmptyLaps 100 2025 ≠ [get_fallback_fastest_lap] := by decide

/-- C2 (amended): for every gateway behavior and time, `fetch_fastest_lap`
returns exactly the static fallback record; `fetch_fastest_laps` returns the
one-element fallback list except in the degenerate case (non-empty lap data
with no valid lap), where it returns the empty list. -/
theorem c2_always_fallback (gw : Gateway) (now year : Int) :
    fetch_fastest_lap gw now year = get_fallback_fastest_lap ∧
    fetch_fastest_laps gw now year =
      (if lapsDegenerate gw now year then [] else [get_fallback_fastest_lap]) :=
  ⟨fetch_fastest_lap_always_fallback gw now year, fetch_fastest_laps_cases gw now year⟩

/-- C3 (counterexample): the claim requires points to be non-increasing on
every path, but the primary-API path copies the provider's points verbatim
while assigning positions in list order; a provider list sorted ascending by
points (1 then 5) yields increasing points. -/
theorem c3_unsorted_primary_counterexample :
    ¬standingsInvD (fetch_driver_standings gwUnsorted 2025) := by
  intro h
  have h2 := h.2
  revert h2
  decide

/-- C3 (amended): positions are exactly `1..k` (`k ≤ 10`) strictly increasing
on every path of both standings operations; points are non-increasing on the
derived-from-results path and on the static-fallback path (the primary-API
path reproduces the provider's point values in list order, so its
monotonicity holds only when the provider's list is sorted). -/
theorem c3_standings_invariants (gw : Gateway) (year : Int) :
    positionsOkD (fetch_driver_standings gw year) ∧
    positionsOkT (fetch_constructor_standings gw year) ∧
    standingsInvD (calculate_standings_from_results gw year).1 ∧
    standingsInvT (calculate_standings_from_results gw year).2 ∧
    standingsInvD get_fallback_standings.1 ∧
    standingsInvT get_fallback_standings.2 :=
  ⟨fetch_driver_standings_positionsOk gw year, fetch_constructor_standings_positionsOk gw year,
   (calculate_standings_inv gw year).1, (calculate_standings_inv gw year).2,
   by unfold standingsInvD positionsOkD; decide,
   by unfold standingsInvT positionsOkT; decide⟩

/-- C4: the fixed points table maps positions 1..10 to 25, 18, 15, 12, 10, 8,
6, 4, 2, 1, every other position (0 or 11 and above, i.e. missing from the
table) to 0; and a driver's accumulated total in the standings derivation is
exactly the sum over the processed sessions of the points of that driver's
final classified position. -/
theorem c4_points_table_and_accumulation :
    (pointsFor 1 = 25 ∧ pointsFor 2 = 18 ∧ pointsFor 3 = 15 ∧ pointsFor 4 = 12 ∧
     pointsFor 5 = 10 ∧ pointsFor 6 = 8 ∧ pointsFor 7 = 6 ∧ pointsFor 8 = 4 ∧
     pointsFor 9 = 2 ∧ pointsFor 10 = 1) ∧
    (∀ p, p = 0 ∨ 11 ≤ p → pointsFor p = 0) ∧
    (∀ (gw : Gateway) (year : Int) (n : Nat),
      ptsAtD (driverPointsOf gw (resolvedSessions gw year)) (n, (driverInfo n).name) =
        ((resolvedSessions gw year).map (fun s => sessionPts gw s n)).sum) := by
  refine ⟨by decide, ?_, ?_⟩
  · intro p hp
    unfold pointsFor
    split_ifs <;> omega
  · intro gw year n
    exact ptsAtD_driverPointsOf gw (resolvedSessions gw year) n

/-- C4 (witness): position 11 is worth zero points. -/
theorem c4_witness : (11 = 0 ∨ 11 ≤ 11) ∧ pointsFor 11 = 0 :=
  ⟨Or.inr (by decide), c4_points_table_and_accumulation.2.1 11 (Or.inr (by decide))⟩

/-- C5: whenever the primary provider's season list contains an upcoming race
(one whose parsed start time is strictly after now), the next-race resolver
returns the tier-1 result built from the earliest such race, and its
consultation trace is exactly the one primary query: the secondary provider
(OpenF1 meetings) is never consulted and tiers 3 and 4 are never reached. -/
theorem c5_tier1_wins_no_secondary (gw : Gateway) (now year : Int)
    (races : List RaceEntry) (r : RaceEntry) (t : Int)
    (h1 : gw.primRaces year = some races) (h2 : tier1Pick races now = some (r, t)) :
    fetch_next_race_traced gw now year = (mkTier1 r t now, [NQuery.primRaces year]) ∧
    (∀ y, NQuery.meetings y ∉ (fetch_next_race_traced gw now year).2) ∧
    NQuery.primRaces (year + 1) ∉ (fetch_next_race_traced gw now year).2 := by
  have he : fetch_next_race_traced gw now year = (mkTier1 r t now, [NQuery.primRaces year]) := by
    simp only [fetch_next_race_traced, h1, h2]
  refine ⟨he, fun y => ?_, ?_⟩
  · rw [he]
    simp
  · rw [he]
    simp

/-- C5 (witness): a concrete behavior with two upcoming races listed
out of order and a decoy secondary meeting: the resolver answers with the
sooner race and consults only the primary provider. -/
theorem c5_witness :
    gwNextT1.primRaces 2025 = some [raceLater, raceSooner] ∧
    tier1Pick [raceLater, raceSooner] 100 = some (raceSooner, 150) ∧
    fetch_next_race_traced gwNextT1 100 2025 =
      (mkTier1 raceSooner 150 100, [NQuery.primRaces 2025]) ∧
    (∀ y, NQuery.meetings y ∉ (fetch_next_race_traced gwNextT1 100 2025).2) := by
  have T := c5_tier1_wins_no_secondary gwNextT1 100 2025 [raceLater, raceSooner]
    raceSooner 150 (by decide) (by decide)
  exact ⟨by decide, by decide, T.1, T.2.1⟩

/-- C6: each resolver is a total function of the gateway behavior; under total
upstream unavailability each returns its static fallback value, and every
modelled mid-computation fault (the `NameError` reaching the fastest-lap
handlers, a failing `float` conversion in the primary standings path) is
converted to the resolver's fallback chain instead of escaping to the
caller. -/
theorem c6_resolvers_never_raise (gw : Gateway) (now year : Int) :
    fetch_driver_standings gwAbsent year = get_fallback_standings.1 ∧
    fetch_constructor_standings gwAbsent year = get_fallback_standings.2 ∧
    fetch_next_race gwAbsent now year = seasonBreak ∧
    fetch_fastest_lap gwAbsent now year = get_fallback_fastest_lap ∧
    fetch_fastest_laps gwAbsent now year = [get_fallback_fastest_lap] ∧
    (∀ e, fastestLapBody gw now year = .error e →
      fetch_fastest_lap gw now year = get_fallback_fastest_lap) ∧
    (∀ e, fastestLapsBody gw now year = .error e →
      fetch_fastest_laps gw now year = [get_fallback_fastest_lap]) ∧
    (∀ entries e, gw.primDriverStandings = some entries →
      buildPrimD 0 (entries.take 10) = .error e →
      fetch_driver_standings gw year = (calculate_standings_from_results gw year).1) := by
  refine ⟨rfl, rfl, rfl, rfl, rfl, ?_, ?_, ?_⟩
  · intro e h
    rw [fetch_fastest_lap, h]
  · intro e h
    rw [fetch_fastest_laps, h]
  · intro entries e h1 h2
    simp only [fetch_driver_standings, h1, h2]

/-- C6 (witness): a behavior on which every modelled fault fires: the
fastest-lap bodies raise (undefined `get_sector_times`), the primary standings
entry has unparseable points, and the resolvers still answer with their
fallback chain. -/
theorem c6_witness :
    fastestLapBody gwFault 100 2025 = .error () ∧
    fetch_fastest_lap gwFault 100 2025 = get_fallback_fastest_lap ∧
    fastestLapsBody gwFault 100 2025 = .error () ∧
    fetch_fastest_laps gwFault 100 2025 = [get_fallback_fastest_lap] ∧
    buildPrimD 0 ([junkEntry].take 10) = .error () ∧
    fetch_driver_standings gwFault 2025 = (calculate_standings_from_results gwFault 2025).1 := by
  have T := c6_resolvers_never_raise gwFault 100 2025
  exact ⟨by decide, T.2.2.2.2.2.1 () (by decide), by decide,
    T.2.2.2.2.2.2.1 () (by decide), by decide,
    T.2.2.2.2.2.2.2 [junkEntry] () (by decide) (by decide)⟩

/-- C7: the countdown rendering: `"Unknown"` when the date string fails to
parse, `"Race completed"` when the target is strictly in the past, otherwise
days/hours, hours/minutes or minutes alone per the spec's case split; in
particular 2 days 3 hours ahead renders `"2 days, 3 hours"`, 45 minutes ahead
renders `"45 minutes"`, and 10 minutes in the past renders
`"Race completed"`. -/
theorem c7_countdown_rendering (t now : Int) :
    calculate_time_left none now = "Unknown" ∧
    calculate_time_left (some t) now = countdownSpec t now ∧
    calculate_time_left (some (now + 183600)) now = "2 days, 3 hours" ∧
    calculate_time_left (some (now + 2700)) now = "45 minutes" ∧
    calculate_time_left (some (now - 600)) now = "Race completed" := by
  refine ⟨rfl, calculate_time_left_eq_spec t now, ?_, ?_, ?_⟩
  · rw [calculate_time_left_shift]
    have h : now + 183600 - now = (183600 : Int) := by omega
    rw [h]
    decide
  · rw [calculate_time_left_shift]
    have h : now + 2700 - now = (2700 : Int) := by omega
    rw [h]
    decide
  · rw [calculate_time_left_shift]
    have h : now - 600 - now = (-600 : Int) := by omega
    rw [h]
    decide

/-- C8: for positive durations the rendered lap time is the integer floor of
the duration over one minute, a colon, and the seconds remainder with three
decimals zero-padded to width 6; in particular 80.554 s renders `"1:20.554"`
and 59.001 s renders `"0:59.001"` (durations in milliseconds). -/
theorem c8_lap_time_format :
    (∀ ms, 0 < ms → format_lap_time ms = lapTimeSpec ms) ∧
    format_lap_time 80554 = "1:20.554" ∧
    format_lap_time 59001 = "0:59.001" :=
  ⟨fun ms _ => format_lap_time_eq_spec ms, by decide, by decide⟩

/-- C8 (witness): the refinement instantiated at 80554 ms. -/
theorem c8_witness : 0 < 80554 ∧ format_lap_time 80554 = lapTimeSpec 80554 :=
  ⟨by decide, c8_lap_time_format.1 80554 (by decide)⟩

/-- C9: the spec describes the top-N list as each driver's own minimum-duration
valid lap of the selected session, sorted ascending, at most one entry per
driver.  The code computes exactly that list (`top_laps`), but cannot return
it: the first loop iteration calls the undefined `get_sector_times`, raises
`NameError`, and the handler returns the one-element static fallback list.
Concretely: the selected session's per-driver-best list is the single Norris
lap, yet the returned list is the Verstappen fallback. -/
theorem c9_top_laps_replaced_by_fallback :
    topLaps gwLap 100 2025 = [lapNorris] ∧
    (driverInfo lapNorris.driver_number).name = "Lando Norris" ∧
    fetch_fastest_laps gwLap 100 2025 = [get_fallback_fastest_lap] ∧
    (fetch_fastest_laps gwLap 100 2025).map (·.driver_name) = ["Max Verstappen"] := by decide

/-- C10: in the standings derivation, the final-position pass retains exactly
one record per car number appearing in the session's records, and the retained
record has a maximal timestamp among that car's records; the points pass reads
only these retained records. -/
theorem c10_final_position_retention (ps : List PositionRec) :
    ((finalPositions ps).map Prod.fst).Nodup ∧
    (∀ n, n ∈ (finalPositions ps).map Prod.fst ↔ n ∈ ps.map (·.driver_number)) ∧
    (∀ kv ∈ finalPositions ps, kv.2.driver_number = kv.1 ∧ kv.2 ∈ ps ∧
      ∀ q ∈ ps, q.driver_number = kv.1 → q.date ≤ kv.2.date) := by
  refine ⟨finalPositions_nodup_keys ps, finalPositions_keys_iff ps, ?_⟩
  intro kv hkv
  obtain ⟨k, p⟩ := kv
  exact finalPositions_mem hkv

/-- C10 (witness): car 7 has two records (timestamps 100 then 200); the
record with timestamp 200 is retained and dominates the earlier one. -/
theorem c10_witness :
    ((finalPositions [⟨7, 100, 3⟩, ⟨7, 200, 1⟩, ⟨8, 150, 2⟩]).map Prod.fst).Nodup ∧
    (7 ∈ (finalPositions [⟨7, 100, 3⟩, ⟨7, 200, 1⟩, ⟨8, 150, 2⟩]).map Prod.fst ↔
      7 ∈ ([⟨7, 100, 3⟩, ⟨7, 200, 1⟩, ⟨8, 150, 2⟩] : List PositionRec).map (·.driver_number)) ∧
    ((⟨7, 100, 3⟩ : PositionRec).date ≤ (⟨7, 200, 1⟩ : PositionRec).date) := by
  have T := c10_final_position_retention [⟨7, 100, 3⟩, ⟨7, 200, 1⟩, ⟨8, 150, 2⟩]
  refine ⟨T.1, T.2.1 7, ?_⟩
  exact (T.2.2 (7, ⟨7, 200, 1⟩) (by decide)).2.2 ⟨7, 100, 3⟩ (by decide) (by decide)
